import Mathlib

/-
Verification development for the AP-class repository (Rust teaching files).

The repository consists of commented walkthrough files for a Rust course.
Its specification describes, besides the entry point in src/src/main.rs and
concrete demonstration functions such as LimitTracker::set_value
(src/src/full_files/c11_heap.rs) and shoes_in_size
(src/src/full_files/c12_fp.rs), a lesson-runner / example-catalog shell.
That shell is not present anywhere in the source tree; the spec states it is
a reconstruction of the intended organization.  It is therefore modelled
here directly from the words of the spec (every such definition carries a
doc comment beginning with "Modelled from the spec:").  Everything else is
a shallow embedding of the Rust code itself.
-/

/-! ## Part 1: embedding of the entry point, src/src/main.rs -/

namespace MainRs

/-- Embedding of `main` from src/src/main.rs (lines 32-130): the body of the
function consists exclusively of commented-out calls (every line between the
braces starts with `//`), so the executed body is empty.  This list records
the function calls `main` actually performs: none. -/
def mainBodyCalls : List String := []

/-- Embedding of the standard-output lines produced by `main`: the empty body
prints nothing. -/
def mainOutputLines : List String := []

/-- Rust process semantics for a `main` returning `()` without panicking: the
process exit code is 0.  Since the body is empty, `main` cannot panic, so the
exit code is unconditionally 0. -/
def mainExitCode : Nat := 0

/-- Running the program: `main` takes no parameters and never inspects the
command line (src/src/main.rs declares `pub fn main()` and reads no
`std::env::args`), so the arguments are ignored.  The result is the triple
(function calls performed, output lines, exit code). -/
def mainRun (_args : List String) : List String × List String × Nat :=
  (mainBodyCalls, mainOutputLines, mainExitCode)

/-- The public example functions declared in src/src/classes/c01_basic.rs
(`pub fn var_ass_mut`, `pub fn vals_types`, `pub fn expressions`): the
example functions that a driver calling "the example functions in sequence"
would have to call. -/
def c01BasicFunctions : List String := ["var_ass_mut", "vals_types", "expressions"]

end MainRs

/-! ## Part 2: embedding of LimitTracker, src/src/full_files/c11_heap.rs -/

namespace C11Heap

/-- Embedding of `struct LimitTracker` (c11_heap.rs lines 558-562): the
`messenger` reference is represented implicitly by returning the list of
messages that `send` is called with; `usize` fields become `Nat`. -/
structure LimitTracker where
  value : Nat
  max : Nat
deriving DecidableEq, Repr

/-- Embedding of `LimitTracker::new` (c11_heap.rs): value starts at 0. -/
def LimitTracker.new (max : Nat) : LimitTracker :=
  { value := 0, max := max }

/-- The over-quota message sent by `set_value`. -/
def overQuotaMsg : String := "Error: You are over your quota!"

/-- The 90% warning message sent by `set_value`. -/
def urgentWarningMsg : String := "Urgent warning: You\x27ve used up over 90% of your quota!"

/-- The 75% warning message sent by `set_value`. -/
def warningMsg : String := "Warning: You\x27ve used up over 75% of your quota!"

/-- Round-to-nearest with ties to even, of a nonnegative rational: the
rounding of an IEEE-754 significand. -/
def roundNearestEven (m : ℚ) : ℤ :=
  let n : ℤ := ⌊m⌋
  if m - n < 1/2 then n
  else if 1/2 < m - n then n + 1
  else if n % 2 = 0 then n else n + 1

/-- The binary exponent of a positive rational: the unique k with
2 ^ k ≤ q < 2 ^ (k + 1). -/
def qlog2 (q : ℚ) : ℤ :=
  let k : ℤ := (Nat.log2 q.num.toNat : ℤ) - (Nat.log2 q.den : ℤ)
  if q < 2 ^ k then k - 1 else k

/-- IEEE-754 binary64 rounding (round-to-nearest, ties to even) of a
nonnegative rational, given as the exact rational value of the resulting
double: the 53-bit significand q / 2 ^ (qlog2 q - 52) is rounded to an
integer.  Every value arising from `set_value` (usize casts, their
quotients, and the literals 1.0, 0.9, 0.75) lies in the finite normal range
of binary64, where this is exactly the IEEE cast/rounding semantics and
where IEEE comparison of doubles coincides with comparison of these exact
rational values. -/
def roundF64 (q : ℚ) : ℚ :=
  if q ≤ 0 then 0
  else (roundNearestEven (q / 2 ^ (qlog2 q - 52)) : ℚ) * 2 ^ (qlog2 q - 52)

/-- The Rust cast `n as f64` for a usize n: rounds to the nearest double
(ties to even). -/
def natToF64 (n : Nat) : ℚ := roundF64 (n : ℚ)

/-- IEEE-754 division of two nonnegative finite doubles: the exact quotient,
correctly rounded. -/
def f64Div (x y : ℚ) : ℚ := roundF64 (x / y)

/-- Embedding of `LimitTracker::set_value` (c11_heap.rs lines 580-594): it
stores the new value and computes
`percentage_of_max = self.value as f64 / self.max as f64` in IEEE-754
binary64 arithmetic, modelled exactly: the usize casts round to the nearest
double, the division is correctly rounded, and each double is represented
by its exact rational value.  The literal `0.9` denotes the nearest double
`roundF64 (9/10)`; `1.0` and `0.75` are exactly representable.  When
`self.max = 0` the quotient is NaN (value 0; every `>=` comparison is
false, nothing is sent) or +infinity (positive value; above every
threshold, the over-quota error is sent).  The second component of the
result is the list of messages sent during the call, in order. -/
def set_value (t : LimitTracker) (value : Nat) : LimitTracker × List String :=
  let t₂ : LimitTracker := { t with value := value }
  if t₂.max = 0 then
    if t₂.value = 0 then (t₂, []) else (t₂, [overQuotaMsg])
  else
    let percentage_of_max : ℚ := f64Div (natToF64 t₂.value) (natToF64 t₂.max)
    if percentage_of_max ≥ roundF64 1 then
      (t₂, [overQuotaMsg])
    else if percentage_of_max ≥ roundF64 (9/10) then
      (t₂, [urgentWarningMsg])
    else if percentage_of_max ≥ roundF64 (3/4) then
      (t₂, [warningMsg])
    else
      (t₂, [])

/-- Embedding of `workingtests::it_sends_an_over_75_percent_warning_message`
(c11_heap.rs lines 684-692): a tracker with max 100 is set to 80 and the mock
messenger must have recorded exactly one message.  The embedding returns the
number of recorded messages. -/
def it_sends_an_over_75_percent_warning_message : Nat :=
  (set_value (LimitTracker.new 100) 80).2.length

end C11Heap

/-! ## Part 3: embedding of shoes_in_size, src/src/full_files/c12_fp.rs -/

namespace C12Fp

/-- Embedding of `struct Shoe` (c12_fp.rs lines 474-477): `u32` becomes
`Nat`, `String` stays a string. -/
structure Shoe where
  size : Nat
  style : String
deriving DecidableEq, Repr

/-- Embedding of `fn shoes_in_size` (c12_fp.rs lines 484-486):
`shoes.into_iter().filter(|s| s.size == shoe_size).collect()`. -/
def shoes_in_size (shoes : List Shoe) (shoe_size : Nat) : List Shoe :=
  shoes.filter (fun s => s.size == shoe_size)

/-- The three shoes built by `filters_by_size` (c12_fp.rs lines 488-508). -/
def filtersBySizeShoes : List Shoe :=
  [{ size := 10, style := "sneaker" },
   { size := 13, style := "sandal" },
   { size := 10, style := "boot" }]

end C12Fp

/-! ## Part 4: the lesson-runner / example-catalog shell, modelled from the
spec (sections 3, 4, 6 of spec.md).  No code for this shell exists under
src/; the spec presents it as the intended organization of the material. -/

namespace CatalogRunner

/-- Modelled from the spec: the expectation flag of an ExampleUnit,
{ExpectSuccess, ExpectFailure}. -/
inductive Expectation where
  | expectSuccess
  | expectFailure
deriving DecidableEq, Repr

/-- Modelled from the spec: the behavior of the zero-argument action of a
unit when executed — it either completes normally or raises with a reason.
The spec treats every action as an opaque synchronous callable. -/
inductive ActionBehavior where
  | completes
  | raises (reason : String)
deriving DecidableEq, Repr

/-- Modelled from the spec: an ExampleUnit — identifying name, a
zero-argument executable action (represented by the side effects it performs
when executed plus its termination behavior), an expectation flag, and an
optional free-text note. -/
structure ExampleUnit where
  name : String
  effects : List String
  behavior : ActionBehavior
  expectation : Expectation
  note : Option String := none
deriving DecidableEq, Repr

/-- Modelled from the spec: a Lesson — identifying name and ordered sequence
of ExampleUnits (insertion order is meaningful). -/
structure Lesson where
  name : String
  units : List ExampleUnit
deriving DecidableEq, Repr

/-- Modelled from the spec: the Catalog — ordered sequence of Lessons. -/
structure Catalog where
  lessons : List Lesson
deriving DecidableEq, Repr

/-- Modelled from the spec: the catalog-structural error taxonomy of
section 7. -/
inductive CatalogError where
  | duplicateLesson
  | duplicateUnit
  | unknownLesson
  | unknownUnit
deriving DecidableEq, Repr

instance {ε α : Type} [DecidableEq ε] [DecidableEq α] : DecidableEq (Except ε α)
  | .error x, .error y => decidable_of_iff (x = y) (by simp)
  | .error _, .ok _ => isFalse (by simp)
  | .ok _, .error _ => isFalse (by simp)
  | .ok x, .ok y => decidable_of_iff (x = y) (by simp)

/-- Whether a list of names contains two equal entries. -/
def dupNames : List String → Bool
  | [] => false
  | n :: ns => ns.contains n || dupNames ns

/-- Modelled from the spec: `register(lessonName, units)` — fails with
DuplicateLessonError if lessonName is already present, fails with
DuplicateUnitError if two units in the same registration share a name,
otherwise appends a Lesson. -/
def register (c : Catalog) (lessonName : String) (units : List ExampleUnit) :
    Except CatalogError Catalog :=
  if (c.lessons.map Lesson.name).contains lessonName then
    .error .duplicateLesson
  else if dupNames (units.map ExampleUnit.name) then
    .error .duplicateUnit
  else
    .ok ⟨c.lessons ++ [⟨lessonName, units⟩]⟩

/-- The catalog state after a call to `register`: on failure the catalog is
the one passed in (register has no other way to touch it), on success it is
the returned catalog. -/
def registerState (c : Catalog) (lessonName : String) (units : List ExampleUnit) : Catalog :=
  match register c lessonName units with
  | .error _ => c
  | .ok c₂ => c₂

/-- Modelled from the spec: `listLessons()` — ordered sequence of lesson
names. -/
def listLessons (c : Catalog) : List String :=
  c.lessons.map Lesson.name

/-- Modelled from the spec: `listUnits(lessonName)` — ordered sequence of
unit names within a lesson, UnknownLessonError if absent. -/
def listUnits (c : Catalog) (lessonName : String) : Except CatalogError (List String) :=
  match c.lessons.find? (fun l => l.name == lessonName) with
  | none => .error .unknownLesson
  | some l => .ok (l.units.map ExampleUnit.name)

/-- Modelled from the spec: `find(lessonName, unitName)` — returns the
ExampleUnit or fails with UnknownLessonError / UnknownUnitError. -/
def find (c : Catalog) (lessonName unitName : String) : Except CatalogError ExampleUnit :=
  match c.lessons.find? (fun l => l.name == lessonName) with
  | none => .error .unknownLesson
  | some l =>
    match l.units.find? (fun u => u.name == unitName) with
    | none => .error .unknownUnit
    | some u => .ok u

/-- Modelled from the spec: the observed outcome of one unit,
{Succeeded, Failed(reason)}. -/
inductive Outcome where
  | succeeded
  | failed (reason : String)
deriving DecidableEq, Repr

/-- Modelled from the spec: a RunResult — names of lesson and unit, the
observed outcome, and whether it matched the declared expectation. -/
structure RunResult where
  lesson : String
  unitName : String
  outcome : Outcome
  matched : Bool
deriving DecidableEq, Repr

/-- Modelled from the spec: executing one unit at the per-unit boundary.  A
raise is caught and recorded as Failed(reason); matched compares the observed
outcome with the declared expectation (an ExpectFailure unit that raises is a
match, an ExpectFailure unit that completes is a mismatch). -/
def execUnit (lessonName : String) (u : ExampleUnit) : RunResult :=
  match u.behavior with
  | .completes =>
    { lesson := lessonName, unitName := u.name, outcome := .succeeded,
      matched := u.expectation == .expectSuccess }
  | .raises r =>
    { lesson := lessonName, unitName := u.name, outcome := .failed r,
      matched := u.expectation == .expectFailure }

/-- Modelled from the spec: what a run produces — the ordered RunResults and
the ordered side effects performed by the executed actions (the shared
console output / side-effect counter of the spec). -/
structure RunOutput where
  results : List RunResult
  trace : List String
deriving DecidableEq, Repr

/-- Modelled from the spec: executing an ordered list of units of one lesson,
one at a time, never stopping early; one RunResult per unit. -/
def runUnits (lessonName : String) (us : List ExampleUnit) : RunOutput :=
  { results := us.map (execUnit lessonName),
    trace := us.flatMap ExampleUnit.effects }

/-- Modelled from the spec: executing a list of lessons in order. -/
def runLessons : List Lesson → RunOutput
  | [] => { results := [], trace := [] }
  | l :: ls =>
    let o := runUnits l.name l.units
    let rest := runLessons ls
    { results := o.results ++ rest.results, trace := o.trace ++ rest.trace }

/-- Modelled from the spec: `runAll()` — executes every unit in every lesson
in registration order. -/
def runAll (c : Catalog) : RunOutput :=
  runLessons c.lessons

/-- Modelled from the spec: `runLesson(lessonName)` — restricted to one
lesson, UnknownLessonError before executing anything if absent. -/
def runLesson (c : Catalog) (lessonName : String) : Except CatalogError RunOutput :=
  match c.lessons.find? (fun l => l.name == lessonName) with
  | none => .error .unknownLesson
  | some l => .ok (runUnits l.name l.units)

/-- Modelled from the spec: `runUnit(lessonName, unitName)` — executes
exactly one unit, UnknownLessonError/UnknownUnitError before executing
anything. -/
def runUnit (c : Catalog) (lessonName unitName : String) : Except CatalogError RunOutput :=
  match find c lessonName unitName with
  | .error e => .error e
  | .ok u => .ok (runUnits lessonName [u])

/-- The side effects actually performed by a `runLesson` call (empty when the
call fails, since failure happens before executing anything). -/
def runLessonTrace (c : Catalog) (lessonName : String) : List String :=
  match runLesson c lessonName with
  | .error _ => []
  | .ok o => o.trace

/-- The side effects actually performed by a `runUnit` call (empty when the
call fails, since failure happens before executing anything). -/
def runUnitTrace (c : Catalog) (lessonName unitName : String) : List String :=
  match runUnit c lessonName unitName with
  | .error _ => []
  | .ok o => o.trace

/-- Total number of registered units in the catalog. -/
def totalUnits (c : Catalog) : Nat :=
  (c.lessons.map (fun l => l.units.length)).sum

/-- The (lesson name, unit name) pairs in registration order: lessons in
registration order and, within each lesson, units in registration order. -/
def traversal (c : Catalog) : List (String × String) :=
  c.lessons.flatMap (fun l => l.units.map (fun u => (l.name, u.name)))

/-- The traversal read off through `listLessons` and `listUnits`. -/
def lookupTraversal (c : Catalog) : List (String × String) :=
  (listLessons c).flatMap (fun ln =>
    match listUnits c ln with
    | .ok uns => uns.map (fun un => (ln, un))
    | .error _ => [])

/-- Modelled from the spec: the Reporter count of matched RunResults. -/
def matchedCount (rs : List RunResult) : Nat :=
  rs.countP (fun r => r.matched)

/-- Whether every RunResult matched its declared expectation. -/
def allMatched (rs : List RunResult) : Bool :=
  rs.all (fun r => r.matched)

/-- Modelled from the spec: the Reporter — a pure function from the ordered
RunResult sequence to the summary text (counts of matched/mismatched). -/
def summary (rs : List RunResult) : List String :=
  ["matched " ++ toString (matchedCount rs) ++ " of " ++ toString rs.length]

/-- Modelled from the spec, section 6: the process interface — no arguments
runs `runAll`, `--lesson name` runs `runLesson`, `--lesson name --unit name`
runs `runUnit`; exit code 0 iff all RunResults matched; unknown names produce
a user-visible error message and nonzero exit without running anything.
The result is (output lines, exit code, side effects performed). -/
def cliRun (c : Catalog) (args : List String) : List String × Nat × List String :=
  match args with
  | [] =>
    let o := runAll c
    (summary o.results, (if allMatched o.results then 0 else 1), o.trace)
  | ["--lesson", ln] =>
    match runLesson c ln with
    | .error _ => (["error: unknown lesson " ++ ln], 1, [])
    | .ok o => (summary o.results, (if allMatched o.results then 0 else 1), o.trace)
  | ["--lesson", ln, "--unit", un] =>
    match runUnit c ln un with
    | .error CatalogError.unknownUnit => (["error: unknown unit " ++ un], 1, [])
    | .error _ => (["error: unknown lesson " ++ ln], 1, [])
    | .ok o => (summary o.results, (if allMatched o.results then 0 else 1), o.trace)
  | _ => (["usage: [--lesson name [--unit name]]"], 2, [])

/-- Modelled from the spec: the state of a run that executes units strictly
one at a time — the units still pending (with their lesson names), the
RunResults produced so far, and the side effects performed so far. -/
structure RunState where
  pending : List (String × ExampleUnit)
  results : List RunResult
  trace : List String
deriving DecidableEq, Repr

/-- Modelled from the spec: one execution step of the Runner — it takes the
next pending unit, executes it at the per-unit boundary, appends its
RunResult and its side effects.  Units execute strictly one at a time. -/
inductive RunStep : RunState → RunState → Prop
  | exec (l : String) (u : ExampleUnit) (rest : List (String × ExampleUnit))
      (results : List RunResult) (trace : List String) :
      RunStep ⟨(l, u) :: rest, results, trace⟩
        ⟨rest, results ++ [execUnit l u], trace ++ u.effects⟩

/-- A complete execution: a finite sequence of steps ending with no pending
unit. -/
def Execution (s t : RunState) : Prop :=
  Relation.ReflTransGen RunStep s t ∧ t.pending = []

/-- The selection executed by `runAll`: every unit of every lesson, in
registration order. -/
def selection (c : Catalog) : List (String × ExampleUnit) :=
  c.lessons.flatMap (fun l => l.units.map (fun u => (l.name, u)))

/-- The initial state of a `runAll` execution. -/
def initState (c : Catalog) : RunState :=
  ⟨selection c, [], []⟩

/-! Sample data used by the witnesses. -/

/-- A unit that completes normally and performs one counter increment. -/
def wUnitOk : ExampleUnit :=
  { name := "moveSemantics", effects := ["inc"], behavior := .completes,
    expectation := .expectSuccess }

/-- A unit declared ExpectFailure whose action raises. -/
def wUnitRaise : ExampleUnit :=
  { name := "doubleMove", effects := [], behavior := .raises "deliberate error",
    expectation := .expectFailure }

/-- A unit declared ExpectFailure whose action completes normally. -/
def wUnitSurprise : ExampleUnit :=
  { name := "surprise", effects := [], behavior := .completes,
    expectation := .expectFailure }

/-- A unit declared ExpectSuccess whose action raises. -/
def wUnitBad : ExampleUnit :=
  { name := "middle", effects := [], behavior := .raises "boom",
    expectation := .expectSuccess }

/-- A third unit that completes normally. -/
def wUnitLast : ExampleUnit :=
  { name := "last", effects := ["inc"], behavior := .completes,
    expectation := .expectSuccess }

/-- The example catalog of the spec: lesson "ownership" with
[moveSemantics (ExpectSuccess), doubleMove (ExpectFailure, raises)]. -/
def wCat : Catalog :=
  ⟨[{ name := "ownership", units := [wUnitOk, wUnitRaise] }]⟩

/-- A three-unit lesson whose middle unit raises. -/
def wLesson3 : Lesson :=
  { name := "isolation", units := [wUnitOk, wUnitBad, wUnitLast] }

/-- A two-lesson catalog containing the three-unit lesson. -/
def wCat2 : Catalog :=
  ⟨[{ name := "ownership", units := [wUnitOk, wUnitRaise] }, wLesson3]⟩

/-- Two units sharing the name "dup", for the duplicate-unit witness. -/
def wDupUnits : List ExampleUnit :=
  [{ name := "dup", effects := [], behavior := .completes, expectation := .expectSuccess },
   { name := "dup", effects := [], behavior := .completes, expectation := .expectSuccess }]

/-- The catalog produced by successfully registering lesson "traits" with
[wUnitOk] on top of wCat. -/
def wCatReg : Catalog :=
  ⟨wCat.lessons ++ [{ name := "traits", units := [wUnitOk] }]⟩

end CatalogRunner

/-! ## Helper lemmas -/

namespace CatalogRunner

theorem execUnit_lesson (n : String) (u : ExampleUnit) : (execUnit n u).lesson = n := by
  cases hb : u.behavior <;> simp [execUnit, hb]

theorem execUnit_unitName (n : String) (u : ExampleUnit) : (execUnit n u).unitName = u.name := by
  cases hb : u.behavior <;> simp [execUnit, hb]

theorem runAll_results (c : Catalog) :
    (runAll c).results = c.lessons.flatMap (fun l => l.units.map (execUnit l.name)) := by
  unfold runAll
  induction c.lessons with
  | nil => rfl
  | cons l ls ih => simp [runLessons, runUnits, ih]

theorem runAll_trace (c : Catalog) :
    (runAll c).trace = c.lessons.flatMap (fun l => l.units.flatMap ExampleUnit.effects) := by
  unfold runAll
  induction c.lessons with
  | nil => rfl
  | cons l ls ih => simp [runLessons, runUnits, ih]

theorem runAll_ids (c : Catalog) :
    (runAll c).results.map (fun r => (r.lesson, r.unitName)) = traversal c := by
  rw [runAll_results]
  unfold traversal
  induction c.lessons with
  | nil => rfl
  | cons l ls ih =>
    simp [List.map_map, Function.comp, execUnit_lesson, execUnit_unitName, ih]

theorem traversal_length (c : Catalog) : (traversal c).length = totalUnits c := by
  unfold traversal totalUnits
  induction c.lessons with
  | nil => rfl
  | cons l ls ih => simp [ih]

theorem runAll_length (c : Catalog) : (runAll c).results.length = totalUnits c := by
  have h := congrArg List.length (runAll_ids c)
  simpa [traversal_length] using h

theorem listLessons_cons (l : Lesson) (ls : List Lesson) :
    listLessons ⟨l :: ls⟩ = l.name :: listLessons ⟨ls⟩ := rfl

theorem listUnits_cons_ne (l : Lesson) (ls : List Lesson) (ln : String) (h : l.name ≠ ln) :
    listUnits ⟨l :: ls⟩ ln = listUnits ⟨ls⟩ ln := by
  simp [listUnits, List.find?_cons, h]

theorem listUnits_cons_self (l : Lesson) (ls : List Lesson) :
    listUnits ⟨l :: ls⟩ l.name = .ok (l.units.map ExampleUnit.name) := by
  simp [listUnits, List.find?_cons]

theorem traversal_eq_lookup (c : Catalog) (h : (listLessons c).Nodup) :
    traversal c = lookupTraversal c := by
  obtain ⟨ls⟩ := c
  induction ls with
  | nil => rfl
  | cons l ls ih =>
    have hnd : (listLessons ⟨ls⟩).Nodup := (List.nodup_cons.mp h).2
    have hni : l.name ∉ listLessons ⟨ls⟩ := (List.nodup_cons.mp h).1
    unfold lookupTraversal
    rw [listLessons_cons, List.flatMap_cons, listUnits_cons_self]
    have hrest : (listLessons ⟨ls⟩).flatMap (fun ln =>
        match listUnits ⟨l :: ls⟩ ln with
        | .ok uns => uns.map (fun un => (ln, un))
        | .error _ => []) = lookupTraversal ⟨ls⟩ := by
      unfold lookupTraversal
      apply List.flatMap_congr
      intro ln hln
      rw [listUnits_cons_ne]
      intro hc
      exact hni (hc ▸ hln)
    rw [hrest, ← ih hnd]
    simp [traversal]

theorem dupNames_iff (l : List String) : dupNames l = true ↔ ¬ l.Nodup := by
  induction l with
  | nil => simp [dupNames]
  | cons n ns ih => by_cases hmem : n ∈ ns <;> simp [dupNames, hmem, ih]

theorem register_ok (c : Catalog) (n : String) (us : List ExampleUnit) (c₂ : Catalog)
    (h : register c n us = .ok c₂) :
    c₂ = ⟨c.lessons ++ [⟨n, us⟩]⟩ ∧ n ∉ listLessons c := by
  unfold register at h
  by_cases h₁ : (c.lessons.map Lesson.name).contains n
  · rw [if_pos h₁] at h
    cases h
  · rw [if_neg h₁] at h
    by_cases h₂ : dupNames (us.map ExampleUnit.name)
    · rw [if_pos h₂] at h
      cases h
    · rw [if_neg h₂] at h
      cases h
      refine ⟨rfl, ?_⟩
      intro hmem
      exact h₁ (by simpa [listLessons] using hmem)

theorem find?_append_none {α : Type} (p : α → Bool) (l₁ l₂ : List α)
    (h : List.find? p l₁ = none) :
    List.find? p (l₁ ++ l₂) = List.find? p l₂ := by
  rw [List.find?_append, h, Option.none_or]

theorem notMem_find?_none (ln : String) (ls : List Lesson)
    (h : ln ∉ ls.map Lesson.name) :
    ls.find? (fun l => l.name == ln) = none := by
  rw [List.find?_eq_none]
  intro l hl hbeq
  exact h (List.mem_map.mpr ⟨l, hl, by simpa using hbeq⟩)

theorem notMem_find?_unit_none (un : String) (us : List ExampleUnit)
    (h : un ∉ us.map ExampleUnit.name) :
    us.find? (fun u => u.name == un) = none := by
  rw [List.find?_eq_none]
  intro u hu hbeq
  exact h (List.mem_map.mpr ⟨u, hu, by simpa using hbeq⟩)

theorem listUnits_registered (c : Catalog) (n : String) (us : List ExampleUnit) (c₂ : Catalog)
    (h : register c n us = .ok c₂) :
    listUnits c₂ n = .ok (us.map ExampleUnit.name) := by
  obtain ⟨hc₂, hn⟩ := register_ok c n us c₂ h
  subst hc₂
  have hnone : c.lessons.find? (fun l => l.name == n) = none :=
    notMem_find?_none n c.lessons (by simpa [listLessons] using hn)
  simp [listUnits, find?_append_none _ _ _ hnone, List.find?_cons]

theorem runLesson_registered (c : Catalog) (n : String) (us : List ExampleUnit) (c₂ : Catalog)
    (h : register c n us = .ok c₂) :
    runLesson c₂ n = .ok (runUnits n us) := by
  obtain ⟨hc₂, hn⟩ := register_ok c n us c₂ h
  subst hc₂
  have hnone : c.lessons.find? (fun l => l.name == n) = none :=
    notMem_find?_none n c.lessons (by simpa [listLessons] using hn)
  simp [runLesson, find?_append_none _ _ _ hnone, List.find?_cons]

theorem runStep_deterministic {s t₁ t₂ : RunState}
    (h₁ : RunStep s t₁) (h₂ : RunStep s t₂) : t₁ = t₂ := by
  cases h₁
  cases h₂
  rfl

theorem runStep_final {s t : RunState} (hp : s.pending = []) (h : RunStep s t) : False := by
  cases h
  simp at hp

theorem execution_unique {s t₁ t₂ : RunState}
    (h₁ : Execution s t₁) (h₂ : Execution s t₂) : t₁ = t₂ := by
  obtain ⟨r₁, f₁⟩ := h₁
  obtain ⟨r₂, f₂⟩ := h₂
  revert r₂
  induction r₁ using Relation.ReflTransGen.head_induction_on with
  | refl =>
    intro r₂
    rcases Relation.ReflTransGen.cases_head r₂ with heq | ⟨c, hstep, _⟩
    · exact heq
    · exact absurd hstep (fun h => runStep_final f₁ h)
  | head hstep _ ih =>
    intro r₂
    rcases Relation.ReflTransGen.cases_head r₂ with heq | ⟨c₂, hstep₂, hrest₂⟩
    · subst heq
      exact absurd hstep (fun h => runStep_final f₂ h)
    · cases runStep_deterministic hstep hstep₂
      exact ih hrest₂

theorem execution_run (pending : List (String × ExampleUnit))
    (results : List RunResult) (trace : List String) :
    Execution ⟨pending, results, trace⟩
      ⟨[], results ++ pending.map (fun p => execUnit p.1 p.2),
       trace ++ pending.flatMap (fun p => p.2.effects)⟩ := by
  induction pending generalizing results trace with
  | nil =>
    refine ⟨?_, rfl⟩
    simpa using Relation.ReflTransGen.refl (r := RunStep)
  | cons p ps ih =>
    obtain ⟨l, u⟩ := p
    refine ⟨Relation.ReflTransGen.head (RunStep.exec l u ps results trace) ?_, rfl⟩
    have h := (ih (results ++ [execUnit l u]) (trace ++ u.effects)).1
    simpa using h

theorem runAll_as_machine (c : Catalog) :
    Execution (initState c) ⟨[], (runAll c).results, (runAll c).trace⟩ := by
  have h := execution_run (selection c) [] []
  have hres : (selection c).map (fun p => execUnit p.1 p.2) = (runAll c).results := by
    unfold selection
    rw [runAll_results]
    induction c.lessons with
    | nil => rfl
    | cons l ls ih => simp [ih, List.map_map, Function.comp]
  have htr : (selection c).flatMap (fun p => p.2.effects) = (runAll c).trace := by
    unfold selection
    rw [runAll_trace]
    induction c.lessons with
    | nil => rfl
    | cons l ls ih => simp [ih, List.flatMap_map]
  simpa [hres, htr] using h

end CatalogRunner

namespace C11Heap

theorem qlog2_spec (q : ℚ) (hq : 0 < q) :
    (2:ℚ) ^ qlog2 q ≤ q ∧ q < 2 ^ (qlog2 q + 1) := by
  have hnum : 0 < q.num := Rat.num_pos.mpr hq
  set a : Nat := q.num.toNat with ha
  set b : Nat := q.den with hb
  have ha0 : a ≠ 0 := by
    simp only [ha]
    omega
  have hb0 : b ≠ 0 := q.den_nz
  have haq : ((a : ℤ) : ℚ) = (q.num : ℚ) := by
    simp only [ha]
    exact_mod_cast congrArg Int.cast (Int.toNat_of_nonneg (le_of_lt hnum))
  have hq_eq : q = (a : ℚ) / (b : ℚ) := by
    rw [show ((a : ℕ) : ℚ) = ((a : ℤ) : ℚ) by push_cast; ring, haq]
    exact_mod_cast (Rat.num_div_den q).symm
  have hbpos : (0:ℚ) < (b : ℚ) := by positivity
  set la : ℤ := (Nat.log2 a : ℤ) with hla
  set lb : ℤ := (Nat.log2 b : ℤ) with hlb
  have hale : (2:ℚ) ^ la ≤ (a : ℚ) := by
    rw [hla, zpow_natCast]
    exact_mod_cast Nat.log2_self_le ha0
  have halt : (a : ℚ) < 2 ^ (la + 1) := by
    rw [hla, show ((Nat.log2 a : ℤ) + 1) = ((Nat.log2 a + 1 : ℕ) : ℤ) by push_cast; ring,
      zpow_natCast]
    exact_mod_cast Nat.lt_log2_self
  have hble : (2:ℚ) ^ lb ≤ (b : ℚ) := by
    rw [hlb, zpow_natCast]
    exact_mod_cast Nat.log2_self_le hb0
  have hblt : (b : ℚ) < 2 ^ (lb + 1) := by
    rw [hlb, show ((Nat.log2 b : ℤ) + 1) = ((Nat.log2 b + 1 : ℕ) : ℤ) by push_cast; ring,
      zpow_natCast]
    exact_mod_cast Nat.lt_log2_self
  have hapos : (0:ℚ) < (a : ℚ) := by
    have hpos : 0 < a := Nat.pos_of_ne_zero ha0
    exact_mod_cast hpos
  have hlow : (2:ℚ) ^ (la - lb - 1) < q := by
    rw [hq_eq, show la - lb - 1 = la - (lb + 1) by ring,
      zpow_sub₀ (by norm_num : (2:ℚ) ≠ 0)]
    rw [div_lt_div_iff₀ (by positivity) hbpos]
    calc (2:ℚ) ^ la * (b : ℚ) ≤ (a : ℚ) * (b : ℚ) :=
          mul_le_mul_of_nonneg_right hale (le_of_lt hbpos)
    _ < (a : ℚ) * 2 ^ (lb + 1) := by
          apply mul_lt_mul_of_pos_left hblt hapos
  have hhigh : q < 2 ^ (la - lb + 1) := by
    rw [hq_eq, show la - lb + 1 = (la + 1) - lb by ring,
      zpow_sub₀ (by norm_num : (2:ℚ) ≠ 0)]
    rw [div_lt_div_iff₀ hbpos (by positivity)]
    calc (a : ℚ) * 2 ^ lb < 2 ^ (la + 1) * 2 ^ lb := by
          apply mul_lt_mul_of_pos_right halt (by positivity)
    _ ≤ 2 ^ (la + 1) * (b : ℚ) := by
          apply mul_le_mul_of_nonneg_left hble (by positivity)
  unfold qlog2
  rw [← hla, ← hlb]
  by_cases hcase : q < 2 ^ (la - lb)
  · rw [if_pos hcase]
    refine ⟨le_of_lt hlow, ?_⟩
    rw [show la - lb - 1 + 1 = la - lb by ring]
    exact hcase
  · rw [if_neg hcase]
    exact ⟨le_of_not_lt hcase, hhigh⟩

theorem qlog2_eq_of (q : ℚ) (e : ℤ) (h0 : 0 < q)
    (h1 : (2:ℚ) ^ e ≤ q) (h2 : q < 2 ^ (e + 1)) : qlog2 q = e := by
  obtain ⟨g1, g2⟩ := qlog2_spec q h0
  by_contra hne
  rcases lt_or_gt_of_ne hne with hlt | hgt
  · have hstep : qlog2 q + 1 ≤ e := by omega
    have hle : (2:ℚ) ^ (qlog2 q + 1) ≤ 2 ^ e := zpow_le_zpow_right₀ (by norm_num) hstep
    linarith
  · have hstep : e + 1 ≤ qlog2 q := by omega
    have hle : (2:ℚ) ^ (e + 1) ≤ 2 ^ qlog2 q := zpow_le_zpow_right₀ (by norm_num) hstep
    linarith

theorem roundF64_eq (q : ℚ) (e n : ℤ) (h0 : 0 < q)
    (h1 : (2:ℚ) ^ (e + 52) ≤ q) (h2 : q < 2 ^ (e + 53))
    (hn : roundNearestEven (q / 2 ^ e) = n) :
    roundF64 q = (n : ℚ) * 2 ^ e := by
  have hee : qlog2 q = e + 52 :=
    qlog2_eq_of q (e + 52) h0 h1 (by rw [show e + 52 + 1 = e + 53 by ring]; exact h2)
  unfold roundF64
  rw [if_neg (not_le.mpr h0), hee, show e + 52 - 52 = e by ring, hn]

theorem roundNearestEven_int (n : ℤ) : roundNearestEven (n : ℚ) = n := by
  unfold roundNearestEven
  rw [Int.floor_intCast]
  norm_num

theorem roundF64_dyadic (n e : ℤ) (h1 : 2 ^ 52 ≤ n) (h2 : n < 2 ^ 53) :
    roundF64 ((n : ℚ) * 2 ^ e) = (n : ℚ) * 2 ^ e := by
  have hnpos : (0:ℚ) < (n : ℚ) := by
    have hz : (0:ℤ) < n := lt_of_lt_of_le (by norm_num) h1
    exact_mod_cast hz
  have hepos : (0:ℚ) < (2:ℚ) ^ e := by positivity
  have h0 : 0 < (n : ℚ) * 2 ^ e := by positivity
  have hA : (2:ℚ) ^ (e + 52) ≤ (n : ℚ) * 2 ^ e := by
    rw [zpow_add₀ (by norm_num : (2:ℚ) ≠ 0)]
    have hc : (2:ℚ) ^ (52:ℤ) ≤ (n : ℚ) := by
      rw [show ((52:ℤ)) = ((52:ℕ) : ℤ) by norm_num, zpow_natCast]
      exact_mod_cast h1
    calc (2:ℚ) ^ e * 2 ^ (52:ℤ) = 2 ^ (52:ℤ) * 2 ^ e := by ring
    _ ≤ (n:ℚ) * 2 ^ e := mul_le_mul_of_nonneg_right hc (le_of_lt hepos)
  have hB : (n : ℚ) * 2 ^ e < 2 ^ (e + 53) := by
    rw [zpow_add₀ (by norm_num : (2:ℚ) ≠ 0)]
    have hc : (n : ℚ) < (2:ℚ) ^ (53:ℤ) := by
      rw [show ((53:ℤ)) = ((53:ℕ) : ℤ) by norm_num, zpow_natCast]
      exact_mod_cast h2
    calc (n:ℚ) * 2 ^ e < (2:ℚ) ^ (53:ℤ) * 2 ^ e := mul_lt_mul_of_pos_right hc hepos
    _ = 2 ^ e * 2 ^ (53:ℤ) := by ring
  have hC : roundNearestEven ((n : ℚ) * 2 ^ e / 2 ^ e) = n := by
    rw [mul_div_assoc, div_self (ne_of_gt hepos), mul_one]
    exact roundNearestEven_int n
  exact roundF64_eq _ e n h0 hA hB hC

theorem roundF64_one : roundF64 1 = 1 := by
  have h := roundF64_dyadic (2 ^ 52) (-52) (le_refl _) (by norm_num)
  have he : ((2 ^ 52 : ℤ) : ℚ) * (2:ℚ) ^ (-52 : ℤ) = 1 := by
    rw [zpow_neg]
    norm_num
  rw [he] at h
  exact h

theorem roundF64_075 : roundF64 (3/4) = 3/4 := by
  have h := roundF64_dyadic 6755399441055744 (-53) (by norm_num) (by norm_num)
  have he : ((6755399441055744 : ℤ) : ℚ) * (2:ℚ) ^ (-53 : ℤ) = 3/4 := by
    rw [zpow_neg]
    norm_num
  rw [he] at h
  exact h

theorem roundF64_09 : roundF64 (9/10) = 8106479329266893 / 9007199254740992 := by
  have hn : roundNearestEven ((9/10 : ℚ) / 2 ^ (-53 : ℤ)) = 8106479329266893 := by
    have hx : ((9:ℚ)/10) / 2 ^ (-53 : ℤ) = 40532396646334464 / 5 := by
      rw [zpow_neg]
      norm_num
    rw [hx]
    unfold roundNearestEven
    have hf : ⌊(40532396646334464 / 5 : ℚ)⌋ = 8106479329266892 := by
      rw [Int.floor_eq_iff]
      norm_num
    rw [hf]
    norm_num
  have h := roundF64_eq (9/10) (-53) 8106479329266893 (by norm_num)
    (by rw [show (-53 : ℤ) + 52 = -1 by ring, zpow_neg]; norm_num)
    (by rw [show (-53 : ℤ) + 53 = 0 by ring]; norm_num) hn
  rw [h, zpow_neg]
  norm_num

theorem natToF64_80 : natToF64 80 = 80 := by
  have h := roundF64_dyadic 5629499534213120 (-46) (by norm_num) (by norm_num)
  have he : ((5629499534213120 : ℤ) : ℚ) * (2:ℚ) ^ (-46 : ℤ) = 80 := by
    rw [zpow_neg]
    norm_num
  unfold natToF64
  rw [show ((80 : ℕ) : ℚ) = ((5629499534213120 : ℤ) : ℚ) * (2:ℚ) ^ (-46 : ℤ) from by
    rw [he]; norm_num, h, he]

theorem natToF64_100 : natToF64 100 = 100 := by
  have h := roundF64_dyadic 7036874417766400 (-46) (by norm_num) (by norm_num)
  have he : ((7036874417766400 : ℤ) : ℚ) * (2:ℚ) ^ (-46 : ℤ) = 100 := by
    rw [zpow_neg]
    norm_num
  unfold natToF64
  rw [show ((100 : ℕ) : ℚ) = ((7036874417766400 : ℤ) : ℚ) * (2:ℚ) ^ (-46 : ℤ) from by
    rw [he]; norm_num, h, he]

theorem natToF64_p53 : natToF64 9007199254740992 = 9007199254740992 := by
  have h := roundF64_dyadic 4503599627370496 1 (by norm_num) (by norm_num)
  have he : ((4503599627370496 : ℤ) : ℚ) * (2:ℚ) ^ (1 : ℤ) = 9007199254740992 := by
    norm_num
  unfold natToF64
  rw [show ((9007199254740992 : ℕ) : ℚ)
      = ((4503599627370496 : ℤ) : ℚ) * (2:ℚ) ^ (1 : ℤ) from by rw [he]; norm_num, h, he]

theorem natToF64_p53succ : natToF64 9007199254740993 = 9007199254740992 := by
  have hn : roundNearestEven ((9007199254740993 : ℚ) / 2 ^ (1 : ℤ)) = 4503599627370496 := by
    have hx : ((9007199254740993 : ℚ)) / 2 ^ (1 : ℤ) = 9007199254740993 / 2 := by
      norm_num
    rw [hx]
    unfold roundNearestEven
    have hf : ⌊(9007199254740993 / 2 : ℚ)⌋ = 4503599627370496 := by
      rw [Int.floor_eq_iff]
      norm_num
    rw [hf]
    norm_num
  have h := roundF64_eq 9007199254740993 1 4503599627370496 (by norm_num)
    (by norm_num) (by norm_num) hn
  unfold natToF64
  rw [show ((9007199254740993 : ℕ) : ℚ) = (9007199254740993 : ℚ) from by norm_num, h]
  norm_num

theorem f64Div_80_100 :
    f64Div (natToF64 80) (natToF64 100) = 3602879701896397 / 4503599627370496 := by
  rw [natToF64_80, natToF64_100]
  unfold f64Div
  rw [show (80 : ℚ) / 100 = 4/5 from by norm_num]
  have hn : roundNearestEven ((4/5 : ℚ) / 2 ^ (-53 : ℤ)) = 7205759403792794 := by
    have hx : ((4:ℚ)/5) / 2 ^ (-53 : ℤ) = 36028797018963968 / 5 := by
      rw [zpow_neg]
      norm_num
    rw [hx]
    unfold roundNearestEven
    have hf : ⌊(36028797018963968 / 5 : ℚ)⌋ = 7205759403792793 := by
      rw [Int.floor_eq_iff]
      norm_num
    rw [hf]
    norm_num
  have h := roundF64_eq (4/5) (-53) 7205759403792794 (by norm_num)
    (by rw [show (-53 : ℤ) + 52 = -1 by ring, zpow_neg]; norm_num)
    (by rw [show (-53 : ℤ) + 53 = 0 by ring]; norm_num) hn
  rw [h, zpow_neg]
  norm_num

theorem f64Div_p53 :
    f64Div (natToF64 9007199254740992) (natToF64 9007199254740993) = 1 := by
  rw [natToF64_p53, natToF64_p53succ]
  unfold f64Div
  rw [show (9007199254740992 : ℚ) / 9007199254740992 = 1 from by norm_num]
  exact roundF64_one

theorem set_value_pos (t : LimitTracker) (v : Nat) (hm : t.max ≠ 0) :
    set_value t v =
      ({ t with value := v },
       if f64Div (natToF64 v) (natToF64 t.max) ≥ roundF64 1 then [overQuotaMsg]
       else if f64Div (natToF64 v) (natToF64 t.max) ≥ roundF64 (9/10) then [urgentWarningMsg]
       else if f64Div (natToF64 v) (natToF64 t.max) ≥ roundF64 (3/4) then [warningMsg]
       else []) := by
  unfold set_value
  rw [if_neg hm]
  simp only [ge_iff_le]
  split_ifs <;> rfl

theorem set_value_100_80 :
    (set_value (LimitTracker.new 100) 80).2 = [warningMsg] := by
  rw [set_value_pos (LimitTracker.new 100) 80 (by decide)]
  rw [show (LimitTracker.new 100).max = 100 from rfl]
  rw [f64Div_80_100, roundF64_one, roundF64_09, roundF64_075]
  norm_num

theorem workingtest_one_message : it_sends_an_over_75_percent_warning_message = 1 := by
  unfold it_sends_an_over_75_percent_warning_message
  rw [set_value_100_80]
  rfl

end C11Heap

/-! ## Claim theorems -/

/-- Claim C1, counterexample: the claim states that `main`, invoked with no
arguments, calls the example functions in sequence and prints the Reporter
summary to standard output.  In src/src/main.rs every call in the body of
`main` is commented out: `main` calls none of the example functions (in
particular none of the three public example functions of
classes/c01_basic.rs) and prints nothing. -/
theorem C1_counterexample :
    ¬ ((∀ f ∈ MainRs.c01BasicFunctions, f ∈ (MainRs.mainRun []).1)
        ∧ (MainRs.mainRun []).2.1 ≠ []) := by
  decide

/-- Claim C1, amended: when the process is invoked (with any argument list,
which `main` ignores), its entry point performs no example-function calls,
prints nothing to standard output, and exits with code 0 unconditionally
(with zero RunResults, "every RunResult matched" holds vacuously, so the
exit code clause survives vacuously). -/
theorem C1_main_is_noop (args : List String) :
    MainRs.mainRun args = ([], [], 0) := rfl

/-- Claim C9, counterexample: the claim reads the thresholds as conditions
on the exact ratio v/max.  At v = 2 ^ 53 and max = 2 ^ 53 + 1 the exact
ratio lies in [0.9, 1) (v < max and 9·max ≤ 10·v), so the claim requires
the urgent 90% warning; but both usize casts round to the same double
2 ^ 53, the f64 quotient is exactly 1.0, and the program sends the
over-quota error — a different message. -/
theorem C9_counterexample :
    (C11Heap.set_value { value := 0, max := 9007199254740993 } 9007199254740992).2
        = [C11Heap.overQuotaMsg]
    ∧ 9007199254740992 < 9007199254740993
    ∧ 9 * 9007199254740993 ≤ 10 * 9007199254740992
    ∧ C11Heap.overQuotaMsg ≠ C11Heap.urgentWarningMsg := by
  refine ⟨?_, by norm_num, by norm_num, by decide⟩
  rw [C11Heap.set_value_pos { value := 0, max := 9007199254740993 } 9007199254740992
    (by norm_num)]
  rw [show ({ value := 0, max := 9007199254740993 } : C11Heap.LimitTracker).max
      = 9007199254740993 from rfl]
  rw [C11Heap.f64Div_p53, C11Heap.roundF64_one]
  norm_num

/-- Claim C9, amended: for a LimitTracker with max > 0, set_value(v) stores
v as the value, keeps max, and causes at most one send per call; which
message is sent is decided by the IEEE-754 binary64 quotient
p = (v as f64) / (max as f64) — both casts rounded to the nearest double
and the quotient correctly rounded — compared against the double constants
1.0 (exactly 1), 0.9 (exactly 8106479329266893 / 2 ^ 53) and 0.75 (exactly
3/4): the over-quota error is sent iff p ≥ 1, the urgent warning iff
0.9 ≤ p < 1, the 75% warning iff 0.75 ≤ p < 0.9, and nothing iff
p < 0.75. -/
theorem C9_set_value_f64 (t : C11Heap.LimitTracker) (v : Nat) (hm : 0 < t.max) :
    (C11Heap.set_value t v).1.value = v
    ∧ (C11Heap.set_value t v).1.max = t.max
    ∧ (C11Heap.set_value t v).2.length ≤ 1
    ∧ C11Heap.roundF64 1 = 1
    ∧ C11Heap.roundF64 (9/10) = 8106479329266893 / 9007199254740992
    ∧ C11Heap.roundF64 (3/4) = 3/4
    ∧ ((C11Heap.set_value t v).2 = [C11Heap.overQuotaMsg]
        ↔ 1 ≤ C11Heap.f64Div (C11Heap.natToF64 v) (C11Heap.natToF64 t.max))
    ∧ ((C11Heap.set_value t v).2 = [C11Heap.urgentWarningMsg]
        ↔ (C11Heap.f64Div (C11Heap.natToF64 v) (C11Heap.natToF64 t.max) < 1
            ∧ (8106479329266893 : ℚ) / 9007199254740992
                ≤ C11Heap.f64Div (C11Heap.natToF64 v) (C11Heap.natToF64 t.max)))
    ∧ ((C11Heap.set_value t v).2 = [C11Heap.warningMsg]
        ↔ (C11Heap.f64Div (C11Heap.natToF64 v) (C11Heap.natToF64 t.max)
              < (8106479329266893 : ℚ) / 9007199254740992
            ∧ (3:ℚ)/4 ≤ C11Heap.f64Div (C11Heap.natToF64 v) (C11Heap.natToF64 t.max)))
    ∧ ((C11Heap.set_value t v).2 = []
        ↔ C11Heap.f64Div (C11Heap.natToF64 v) (C11Heap.natToF64 t.max) < (3:ℚ)/4) := by
  have hm0 : t.max ≠ 0 := by omega
  rw [C11Heap.set_value_pos t v hm0, C11Heap.roundF64_one, C11Heap.roundF64_09,
    C11Heap.roundF64_075]
  refine ⟨rfl, rfl, ?_, rfl, rfl, rfl, ?_, ?_, ?_, ?_⟩ <;>
    by_cases hA : C11Heap.f64Div (C11Heap.natToF64 v) (C11Heap.natToF64 t.max) ≥ 1 <;>
      by_cases hB : C11Heap.f64Div (C11Heap.natToF64 v) (C11Heap.natToF64 t.max)
          ≥ (8106479329266893 : ℚ) / 9007199254740992 <;>
        by_cases hC : C11Heap.f64Div (C11Heap.natToF64 v) (C11Heap.natToF64 t.max)
            ≥ (3:ℚ)/4 <;>
          simp [hA, hB, hC, C11Heap.overQuotaMsg, C11Heap.urgentWarningMsg,
            C11Heap.warningMsg] <;> linarith

/-- Claim C9, witness: the scenario of the working test in c11_heap.rs — a
tracker with max 100 set to 80 stores 80 and sends at most one message,
with the 75% warning characterized by the f64 quotient of 80 and 100. -/
theorem C9_witness :
    (C11Heap.set_value (C11Heap.LimitTracker.new 100) 80).1.value = 80
    ∧ (C11Heap.set_value (C11Heap.LimitTracker.new 100) 80).2.length ≤ 1
    ∧ ((C11Heap.set_value (C11Heap.LimitTracker.new 100) 80).2 = [C11Heap.warningMsg]
        ↔ (C11Heap.f64Div (C11Heap.natToF64 80) (C11Heap.natToF64 100)
              < (8106479329266893 : ℚ) / 9007199254740992
            ∧ (3:ℚ)/4 ≤ C11Heap.f64Div (C11Heap.natToF64 80) (C11Heap.natToF64 100))) := by
  have h := C9_set_value_f64 (C11Heap.LimitTracker.new 100) 80 (by decide)
  exact ⟨h.1, h.2.2.1, h.2.2.2.2.2.2.2.2.1⟩

/-- Claim C10: shoes_in_size returns exactly the shoes whose size equals the
requested size — the result is a sublist of the input (so relative order is
preserved and each returned element is unchanged), every returned shoe has
the requested size, and each shoe of the requested size occurs in the result
exactly as often as in the input (shoes of other sizes do not occur). -/
theorem C10_shoes_in_size (shoes : List C12Fp.Shoe) (sz : Nat) :
    (C12Fp.shoes_in_size shoes sz).Sublist shoes
    ∧ (∀ s ∈ C12Fp.shoes_in_size shoes sz, s.size = sz)
    ∧ (∀ s : C12Fp.Shoe, (C12Fp.shoes_in_size shoes sz).count s
        = if s.size = sz then shoes.count s else 0) := by
  refine ⟨List.filter_sublist _, ?_, ?_⟩
  · intro s hs
    have := List.of_mem_filter hs
    simpa using this
  · intro s
    unfold C12Fp.shoes_in_size
    split
    · rw [List.count_filter]
      simp [*]
    · rw [List.count_eq_zero]
      intro hmem
      have := List.of_mem_filter hmem
      simp_all

open CatalogRunner

/-- Claim C2: for every catalog whose lesson names are distinct (the catalog
invariant guaranteed by register), runAll returns exactly one RunResult per
registered unit — as many results as there are units — in the order of the
listLessons/listUnits traversal: lessons in registration order and, within
each lesson, units in registration order; it never stops early, since the
count equals the total number of units regardless of unit behavior. -/
theorem C2_runAll_complete (c : Catalog) (h : (listLessons c).Nodup) :
    (runAll c).results.length = totalUnits c
    ∧ (runAll c).results.map (fun r => (r.lesson, r.unitName)) = traversal c
    ∧ traversal c = lookupTraversal c :=
  ⟨runAll_length c, runAll_ids c, traversal_eq_lookup c h⟩

/-- Claim C2, witness: on the two-lesson five-unit catalog wCat2 (which
contains a unit that raises), runAll produces exactly five RunResults in
traversal order. -/
theorem C2_witness :
    (runAll wCat2).results.length = totalUnits wCat2
    ∧ (runAll wCat2).results.map (fun r => (r.lesson, r.unitName)) = traversal wCat2
    ∧ traversal wCat2 = lookupTraversal wCat2 :=
  C2_runAll_complete wCat2 (by decide)

/-- Claim C3: for every catalog and every unit whose action raises, the
failure is caught at the per-unit boundary and recorded as Failed(reason) in
that unit of the runAll results, while every unit still contributes a
RunResult (the result count equals the total unit count); and for any
selected subset of units (as executed by runAll, runLesson and runUnit, all
of which execute their selection through runUnits) every unit of the subset
contributes a RunResult even when the raising unit is among them. -/
theorem C3_failure_isolation (c : Catalog) (l : Lesson) (u : ExampleUnit) (r : String)
    (hl : l ∈ c.lessons) (hu : u ∈ l.units)
    (hr : u.behavior = ActionBehavior.raises r) :
    (runAll c).results.length = totalUnits c
    ∧ execUnit l.name u ∈ (runAll c).results
    ∧ (execUnit l.name u).outcome = Outcome.failed r
    ∧ ∀ lessonName (us : List ExampleUnit), u ∈ us →
        (runUnits lessonName us).results.length = us.length
        ∧ execUnit lessonName u ∈ (runUnits lessonName us).results := by
  refine ⟨runAll_length c, ?_, by simp [execUnit, hr], ?_⟩
  · rw [runAll_results]
    exact List.mem_flatMap.mpr ⟨l, hl, List.mem_map_of_mem _ hu⟩
  · intro lessonName us hus
    refine ⟨by simp [runUnits], ?_⟩
    simp only [runUnits]
    exact List.mem_map_of_mem _ hus

/-- Claim C3, witness: in the three-unit lesson wLesson3 whose middle unit
raises, all three RunResults are present (the catalog has 5 units and runAll
yields 5 results, the raising unit among them recorded as Failed), and the
three-unit subset itself yields 3 results. -/
theorem C3_witness :
    (runAll wCat2).results.length = totalUnits wCat2
    ∧ execUnit wLesson3.name wUnitBad ∈ (runAll wCat2).results
    ∧ (execUnit wLesson3.name wUnitBad).outcome = Outcome.failed "boom"
    ∧ (runUnits "isolation" wLesson3.units).results.length = wLesson3.units.length
    ∧ execUnit "isolation" wUnitBad ∈ (runUnits "isolation" wLesson3.units).results := by
  have h := C3_failure_isolation wCat2 wLesson3 wUnitBad "boom"
    (by decide) (by decide) (by decide)
  exact ⟨h.1, h.2.1, h.2.2.1, (h.2.2.2 "isolation" wLesson3.units (by decide)).1,
    (h.2.2.2 "isolation" wLesson3.units (by decide)).2⟩

/-- Claim C4: registering a lesson name already present fails with
DuplicateLessonError and leaves the catalog exactly as it was; registering a
(fresh-named) lesson in which two units share a name fails with
DuplicateUnitError and leaves the catalog unchanged; and the only successful
registration is the atomic append of the complete lesson (so there is no
partial registration). -/
theorem C4_register_atomic (c : Catalog) (n : String) (us : List ExampleUnit) :
    (n ∈ listLessons c →
        register c n us = .error CatalogError.duplicateLesson
        ∧ registerState c n us = c)
    ∧ (n ∉ listLessons c → ¬ (us.map ExampleUnit.name).Nodup →
        register c n us = .error CatalogError.duplicateUnit
        ∧ registerState c n us = c)
    ∧ (∀ c₂, register c n us = .ok c₂ → c₂ = ⟨c.lessons ++ [⟨n, us⟩]⟩) := by
  refine ⟨?_, ?_, fun c₂ h => (register_ok c n us c₂ h).1⟩
  · intro h
    have hc : (c.lessons.map Lesson.name).contains n = true := by
      simpa [listLessons] using h
    have hreg : register c n us = .error CatalogError.duplicateLesson := by
      unfold register
      rw [if_pos hc]
    exact ⟨hreg, by simp [registerState, hreg]⟩
  · intro h hnd
    have hc : ¬ ((c.lessons.map Lesson.name).contains n = true) := by
      simpa [listLessons] using h
    have hd : dupNames (us.map ExampleUnit.name) = true := (dupNames_iff _).mpr hnd
    have hreg : register c n us = .error CatalogError.duplicateUnit := by
      unfold register
      rw [if_neg hc, if_pos hd]
    exact ⟨hreg, by simp [registerState, hreg]⟩

/-- Claim C4, witness: on the example catalog, re-registering "ownership"
fails with DuplicateLessonError leaving the catalog untouched, registering a
fresh lesson with two units named "dup" fails with DuplicateUnitError
leaving the catalog untouched, and successfully registering "traits"
produces exactly the old lessons plus the one new complete lesson. -/
theorem C4_witness :
    (register wCat "ownership" [] = .error CatalogError.duplicateLesson
        ∧ registerState wCat "ownership" [] = wCat)
    ∧ (register wCat "generics" wDupUnits = .error CatalogError.duplicateUnit
        ∧ registerState wCat "generics" wDupUnits = wCat)
    ∧ wCatReg = ⟨wCat.lessons ++ [⟨"traits", [wUnitOk]⟩]⟩ :=
  ⟨(C4_register_atomic wCat "ownership" []).1 (by decide),
   (C4_register_atomic wCat "generics" wDupUnits).2.1 (by decide) (by decide),
   (C4_register_atomic wCat "traits" [wUnitOk]).2.2 wCatReg (by decide)⟩

/-- Claim C5: a unit declared ExpectFailure whose action raises yields
matched = true; the same declared-ExpectFailure unit completing normally
yields matched = false; and a unit declared ExpectSuccess whose action
raises yields matched = false. -/
theorem C5_expectation_semantics (lessonName : String) (u : ExampleUnit) (r : String) :
    (u.expectation = Expectation.expectFailure → u.behavior = ActionBehavior.raises r →
        (execUnit lessonName u).matched = true)
    ∧ (u.expectation = Expectation.expectFailure → u.behavior = ActionBehavior.completes →
        (execUnit lessonName u).matched = false)
    ∧ (u.expectation = Expectation.expectSuccess → u.behavior = ActionBehavior.raises r →
        (execUnit lessonName u).matched = false) := by
  refine ⟨?_, ?_, ?_⟩ <;> intro he hb <;> simp [execUnit, hb, he]

/-- Claim C5, witness: the ExpectFailure unit doubleMove raising is a match,
the ExpectFailure unit surprise completing normally is a mismatch, and the
ExpectSuccess unit middle raising is a mismatch. -/
theorem C5_witness :
    (execUnit "ownership" wUnitRaise).matched = true
    ∧ (execUnit "ownership" wUnitSurprise).matched = false
    ∧ (execUnit "isolation" wUnitBad).matched = false :=
  ⟨(C5_expectation_semantics "ownership" wUnitRaise "deliberate error").1
      (by decide) (by decide),
   (C5_expectation_semantics "ownership" wUnitSurprise "x").2.1
      (by decide) (by decide),
   (C5_expectation_semantics "isolation" wUnitBad "boom").2.2
      (by decide) (by decide)⟩

/-- Claim C6: naming an unknown lesson makes runLesson and runUnit fail with
UnknownLessonError before executing any action (the performed side effects
are empty), and naming a known lesson with an unknown unit makes runUnit
fail with UnknownUnitError, again with no side effect; at the process
interface both produce a visible error message, nonzero exit code, and no
executed action. -/
theorem C6_unknown_names (c : Catalog) (ln un : String) :
    (ln ∉ listLessons c →
        runLesson c ln = .error CatalogError.unknownLesson
        ∧ runUnit c ln un = .error CatalogError.unknownLesson
        ∧ runLessonTrace c ln = []
        ∧ runUnitTrace c ln un = []
        ∧ (cliRun c ["--lesson", ln, "--unit", un]).2.1 ≠ 0
        ∧ (cliRun c ["--lesson", ln, "--unit", un]).2.2 = []
        ∧ (cliRun c ["--lesson", ln, "--unit", un]).1 = ["error: unknown lesson " ++ ln])
    ∧ (∀ l, c.lessons.find? (fun x => x.name == ln) = some l →
        un ∉ l.units.map ExampleUnit.name →
        runUnit c ln un = .error CatalogError.unknownUnit
        ∧ runUnitTrace c ln un = []
        ∧ (cliRun c ["--lesson", ln, "--unit", un]).2.1 ≠ 0
        ∧ (cliRun c ["--lesson", ln, "--unit", un]).2.2 = []
        ∧ (cliRun c ["--lesson", ln, "--unit", un]).1 = ["error: unknown unit " ++ un]) := by
  constructor
  · intro h
    have hf : c.lessons.find? (fun l => l.name == ln) = none :=
      notMem_find?_none ln c.lessons (by simpa [listLessons] using h)
    have hrl : runLesson c ln = .error CatalogError.unknownLesson := by
      simp [runLesson, hf]
    have hfind : find c ln un = .error CatalogError.unknownLesson := by
      simp [find, hf]
    have hru : runUnit c ln un = .error CatalogError.unknownLesson := by
      simp [runUnit, hfind]
    refine ⟨hrl, hru, by simp [runLessonTrace, hrl], by simp [runUnitTrace, hru], ?_, ?_, ?_⟩
      <;> simp [cliRun, hru]
  · intro l hfl hun
    have hfu : l.units.find? (fun u => u.name == un) = none :=
      notMem_find?_unit_none un l.units hun
    have hfind : find c ln un = .error CatalogError.unknownUnit := by
      simp [find, hfl, hfu]
    have hru : runUnit c ln un = .error CatalogError.unknownUnit := by
      simp [runUnit, hfind]
    refine ⟨hru, by simp [runUnitTrace, hru], ?_, ?_, ?_⟩ <;> simp [cliRun, hru]

/-- Claim C6, witness: the two probes of the spec on the example catalog —
runUnit("NoSuchLesson", "x") and runUnit("ownership", "NoSuchUnit") — fail
with the respective errors and the side-effect trace stays empty. -/
theorem C6_witness :
    runUnit wCat "NoSuchLesson" "x" = .error CatalogError.unknownLesson
    ∧ runUnitTrace wCat "NoSuchLesson" "x" = []
    ∧ runUnit wCat "ownership" "NoSuchUnit" = .error CatalogError.unknownUnit
    ∧ runUnitTrace wCat "ownership" "NoSuchUnit" = [] := by
  have h₁ := (C6_unknown_names wCat "NoSuchLesson" "x").1 (by decide)
  have h₂ := (C6_unknown_names wCat "ownership" "NoSuchUnit").2
    { name := "ownership", units := [wUnitOk, wUnitRaise] } (by decide) (by decide)
  exact ⟨h₁.2.1, h₁.2.2.2.1, h₂.1, h₂.2.1⟩

/-- Claim C7: after a successful registration of a lesson, listUnits on that
lesson returns exactly the names of the registered units in registration
order, and the default run order of the lesson (runLesson) executes exactly
those units in that same order. -/
theorem C7_listUnits_insertion_order (c : Catalog) (n : String)
    (us : List ExampleUnit) (c₂ : Catalog) (h : register c n us = Except.ok c₂) :
    listUnits c₂ n = .ok (us.map ExampleUnit.name)
    ∧ runLesson c₂ n = .ok (runUnits n us) :=
  ⟨listUnits_registered c n us c₂ h, runLesson_registered c n us c₂ h⟩

/-- Claim C7, witness: registering "traits" with the single unit
moveSemantics on the example catalog makes listUnits return exactly that
name and runLesson execute exactly that unit. -/
theorem C7_witness :
    listUnits wCatReg "traits" = .ok ([wUnitOk].map ExampleUnit.name)
    ∧ runLesson wCatReg "traits" = .ok (runUnits "traits" [wUnitOk]) :=
  C7_listUnits_insertion_order wCat "traits" [wUnitOk] wCatReg (by decide)

/-- Claim C8: execution is deterministic — the Runner machine executes units
strictly one at a time, and any two complete executions from the same
initial state (the same catalog and selection) end in the same final state,
with the same ordered RunResult sequence and the same ordered output; the
complete execution of the runAll selection produces exactly the runAll
results and trace. -/
theorem C8_deterministic_execution (s t₁ t₂ : RunState)
    (h₁ : Execution s t₁) (h₂ : Execution s t₂) :
    t₁ = t₂
    ∧ ∀ c : Catalog,
        Execution (initState c) ⟨[], (runAll c).results, (runAll c).trace⟩ :=
  ⟨execution_unique h₁ h₂, runAll_as_machine⟩

/-- Claim C8, witness: the one-step execution of a single pending unit,
given twice as an explicit derivation, is forced to the same final state. -/
theorem C8_witness :
    (⟨[], [] ++ [execUnit "ownership" wUnitOk], [] ++ wUnitOk.effects⟩ : RunState)
        = ⟨[], [] ++ [execUnit "ownership" wUnitOk], [] ++ wUnitOk.effects⟩
    ∧ ∀ c : Catalog,
        Execution (initState c) ⟨[], (runAll c).results, (runAll c).trace⟩ :=
  C8_deterministic_execution ⟨[("ownership", wUnitOk)], [], []⟩ _ _
    ⟨Relation.ReflTransGen.single (RunStep.exec "ownership" wUnitOk [] [] []), rfl⟩
    ⟨Relation.ReflTransGen.single (RunStep.exec "ownership" wUnitOk [] [] []), rfl⟩
